import Mathlib

/-!
# Verification of the Fed-BioMed round-coordination and task-transport core

Shallow embedding, in Lean 4, of the parts of the Fed-BioMed source that the
specification's claims are about:

* `fedbiomed/transport/server.py` — chunked streaming of task payloads
  (`ResearcherServicer.GetTaskUnary`), reassembly of streamed replies
  (`ResearcherServicer.ReplyTask`), and message routing
  (`_GrpcAsyncServer.send`);
* `fedbiomed/researcher/job.py` — the round dispatcher
  (`Job._get_training_testing_results`, `Job.waiting_for_nodes`,
  `Job.start_nodes_training_round`), optimizer auxiliary-variable handling
  (`Job._prepare_agg_optimizer_aux_var`,
  `Job.extract_received_optimizer_aux_var_from_round`), and breakpoint
  preparation (`Job._save_training_replies`, `Job.update_parameters`,
  `Job.save_state`);
* `fedbiomed/node/node.py` — the node-side message handler
  (`Node.on_message`, `Node.send_error`).

Python dicts are modelled as association lists with first-match lookup
(Python dicts have unique keys, so first-match lookup agrees with dict
lookup on faithful inputs); byte strings are modelled as `List Nat`.
-/

namespace FedBiomed

/-! ## Association-list primitives (model of Python `dict` operations) -/

/-- Model of Python `d.get(k)` / `d[k]`: first entry with key `k`. -/
def dictGet {α : Type} : List (String × α) → String → Option α
  | [], _ => none
  | p :: rest, k => if p.1 = k then some p.2 else dictGet rest k

/-- Model of Python `d[k] = v`: overwrite the entry if the key is present,
append it otherwise. -/
def dictSet {α : Type} : List (String × α) → String → α → List (String × α)
  | [], k, v => [(k, v)]
  | p :: rest, k, v => if p.1 = k then (k, v) :: rest else p :: dictSet rest k v

/-- Model of Python `del d[k]`: drop the first entry with key `k`. -/
def delKey {α : Type} : List (String × α) → String → List (String × α)
  | [], _ => []
  | p :: rest, k => if p.1 = k then rest else p :: delKey rest k

theorem dictGet_dictSet_self {α : Type} (d : List (String × α)) (k : String) (v : α) :
    dictGet (dictSet d k v) k = some v := by
  induction d with
  | nil => simp [dictSet, dictGet]
  | cons p rest ih =>
    by_cases h : p.1 = k
    · simp [dictSet, dictGet, h]
    · simp [dictSet, dictGet, h, ih]

theorem dictGet_dictSet_ne {α : Type} (d : List (String × α)) (k k' : String) (v : α)
    (h : k' ≠ k) : dictGet (dictSet d k v) k' = dictGet d k' := by
  induction d with
  | nil =>
    simp only [dictSet, dictGet]
    rw [if_neg (fun hc => h hc.symm)]
  | cons p rest ih =>
    by_cases hp : p.1 = k
    · subst hp
      simp only [dictSet, if_pos rfl, dictGet]
      rw [if_neg (fun hc => h hc.symm), if_neg (fun hc => h hc.symm)]
    · simp only [dictSet, if_neg hp, dictGet]
      by_cases hp' : p.1 = k'
      · rw [if_pos hp', if_pos hp']
      · rw [if_neg hp', if_neg hp', ih]

theorem mem_dictSet {α : Type} {d : List (String × α)} {k : String} {v : α}
    {x : String × α} (hx : x ∈ dictSet d k v) : x = (k, v) ∨ x ∈ d := by
  induction d with
  | nil => simpa [dictSet] using hx
  | cons p rest ih =>
    by_cases h : p.1 = k
    · simp only [dictSet, if_pos h, List.mem_cons] at hx
      rcases hx with h1 | h2
      · exact Or.inl h1
      · exact Or.inr (List.mem_cons_of_mem _ h2)
    · simp only [dictSet, if_neg h, List.mem_cons] at hx
      rcases hx with h1 | h2
      · exact Or.inr (h1 ▸ List.mem_cons_self _ _)
      · rcases ih h2 with h3 | h4
        · exact Or.inl h3
        · exact Or.inr (List.mem_cons_of_mem _ h4)

theorem dictGet_mem {α : Type} {d : List (String × α)} {k : String} {v : α}
    (h : dictGet d k = some v) : (k, v) ∈ d := by
  induction d with
  | nil => simp [dictGet] at h
  | cons p rest ih =>
    by_cases hp : p.1 = k
    · simp only [dictGet, if_pos hp, Option.some.injEq] at h
      exact (show p = (k, v) from Prod.ext hp h) ▸ List.mem_cons_self _ _
    · simp only [dictGet, if_neg hp] at h
      exact List.mem_cons_of_mem _ (ih h)

theorem dictGet_eq_none_of_not_mem_keys {α : Type} {d : List (String × α)} {k : String}
    (h : k ∉ d.map Prod.fst) : dictGet d k = none := by
  induction d with
  | nil => rfl
  | cons p rest ih =>
    simp only [List.map_cons, List.mem_cons] at h
    push_neg at h
    simp only [dictGet]
    rw [if_neg (fun hc => h.1 hc.symm), ih h.2]

theorem dictGet_delKey_self {α : Type} {d : List (String × α)} {k : String}
    (h : (d.map Prod.fst).Nodup) : dictGet (delKey d k) k = none := by
  induction d with
  | nil => rfl
  | cons p rest ih =>
    simp only [List.map_cons, List.nodup_cons] at h
    by_cases hp : p.1 = k
    · simp only [delKey, if_pos hp]
      exact dictGet_eq_none_of_not_mem_keys (hp ▸ h.1)
    · simp only [delKey, if_neg hp, dictGet]
      exact ih h.2

theorem dictGet_delKey_ne {α : Type} (d : List (String × α)) (k k' : String)
    (h : k' ≠ k) : dictGet (delKey d k) k' = dictGet d k' := by
  induction d with
  | nil => rfl
  | cons p rest ih =>
    by_cases hp : p.1 = k
    · simp only [delKey, if_pos hp, dictGet]
      rw [if_neg (fun hc : p.1 = k' => h ((hc.symm.trans hp)))]
    · simp only [delKey, if_neg hp, dictGet]
      by_cases hp' : p.1 = k'
      · rw [if_pos hp', if_pos hp']
      · rw [if_neg hp', if_neg hp', ih]

/-! ## Chunked transport (`fedbiomed/transport/server.py`)

`ResearcherServicer.GetTaskUnary` (lines 47-85) splits the serialized task
into frames:

```python
chunk_range = range(0, len(task), MAX_MESSAGE_BYTES_LENGTH)
for start, iter_ in zip(chunk_range, range(1, len(chunk_range) + 1)):
    stop = start + MAX_MESSAGE_BYTES_LENGTH
    yield TaskResponse(size=len(chunk_range), iteration=iter_,
                       bytes_=task[start:stop]).to_proto()
```

`ResearcherServicer.ReplyTask` (lines 88-116) reassembles streamed frames:

```python
reply = bytes()
async for answer in request_iterator:
    reply += answer.bytes_
    if answer.size != answer.iteration:
        continue
    else:
        message = Serializer.loads(reply)
        node = await self._agent_store.get(message["node_id"])
        await node.on_reply(message)
        reply = bytes()
```
-/

/-- One streamed frame, mirroring the `TaskResponse` proto message:
`size` is the total number of chunks, `iteration` the 1-based chunk index,
`bytes_` the chunk payload. -/
structure TaskResponse where
  size : Nat
  iteration : Nat
  bytes_ : List Nat
deriving Repr, DecidableEq

/-- The frame sequence yielded by `GetTaskUnary` for a serialized task of
bytes `task` with frame-size bound `maxBytes` (`MAX_MESSAGE_BYTES_LENGTH` in
the source).  `(task.length + maxBytes - 1) / maxBytes` is the length of the
Python range `range(0, len(task), maxBytes)` for `maxBytes ≥ 1`, and
`task[start:stop]` is `(task.drop start).take maxBytes`. -/
def getTaskChunks (task : List Nat) (maxBytes : Nat) : List TaskResponse :=
  let numChunks := (task.length + maxBytes - 1) / maxBytes
  (List.range numChunks).map fun i =>
    { size := numChunks
      iteration := i + 1
      bytes_ := (task.drop (i * maxBytes)).take maxBytes }

/-- State of the `ReplyTask` loop: the buffers delivered so far (each one was
passed to `Serializer.loads` and routed to `NodeAgent.on_reply`), and the
current accumulator `reply`. -/
structure ReplyTaskState where
  delivered : List (List Nat)
  reply : List Nat
deriving Repr, DecidableEq

/-- One iteration of the `async for` loop body of `ReplyTask`. -/
def replyTaskStep (st : ReplyTaskState) (answer : TaskResponse) : ReplyTaskState :=
  let reply := st.reply ++ answer.bytes_
  if answer.size ≠ answer.iteration then { st with reply := reply }
  else { delivered := st.delivered ++ [reply], reply := [] }

/-- Running the `ReplyTask` loop on a finite stream of frames, starting from
the fresh state `reply = bytes()`. -/
def replyTaskRun (frames : List TaskResponse) : ReplyTaskState :=
  frames.foldl replyTaskStep { delivered := [], reply := [] }

/-! ### Proof infrastructure: an explicit chunk decomposition -/

/-- Cutting a byte buffer into maximal pieces of `m` bytes. -/
def chunksOf (m : Nat) : List Nat → List (List Nat)
  | [] => []
  | x :: xs => (x :: xs.take (m - 1)) :: chunksOf m (xs.drop (m - 1))
termination_by l => l.length
decreasing_by simp only [List.length_drop, List.length_cons]; omega

/-- Concatenation of a list of chunks. -/
def joinAll : List (List Nat) → List Nat
  | [] => []
  | c :: rest => c ++ joinAll rest

/-- Frames carrying the given chunk payloads with consecutive 1-based
iteration numbers starting at `iter` and a fixed `total` chunk count. -/
def mkFrames (total : Nat) : Nat → List (List Nat) → List TaskResponse
  | _, [] => []
  | iter, p :: rest =>
    { size := total, iteration := iter, bytes_ := p } :: mkFrames total (iter + 1) rest

theorem joinAll_chunksOf (m : Nat) (l : List Nat) : joinAll (chunksOf m l) = l := by
  induction l using chunksOf.induct m with
  | case1 => rw [chunksOf]; rfl
  | case2 x xs ih =>
    rw [chunksOf]
    simp only [joinAll, ih, List.cons_append]
    rw [List.take_append_drop]

theorem length_chunksOf (m : Nat) (hm : 1 ≤ m) (l : List Nat) :
    (chunksOf m l).length = (l.length + m - 1) / m := by
  induction l using chunksOf.induct m with
  | case1 =>
    rw [chunksOf]
    simp only [List.length_nil]
    rw [Nat.div_eq_of_lt (by omega)]
  | case2 x xs ih =>
    rw [chunksOf]
    simp only [List.length_drop] at ih
    simp only [List.length_cons, ih]
    rcases le_or_lt (m - 1) xs.length with h | h
    · have h1 : xs.length - (m - 1) + m - 1 = xs.length := by omega
      have h2 : xs.length + 1 + m - 1 = xs.length + m := by omega
      rw [h1, h2, Nat.add_div_right _ (by omega)]
    · have h1 : xs.length - (m - 1) + m - 1 = m - 1 := by omega
      have h2 : xs.length + 1 + m - 1 = xs.length + m := by omega
      rw [h1, h2, Nat.add_div_right _ (by omega),
        Nat.div_eq_of_lt (show m - 1 < m by omega),
        Nat.div_eq_of_lt (show xs.length < m by omega)]

theorem chunksOf_ne_nil (m : Nat) (b : List Nat) (hb : b ≠ []) :
    chunksOf m b ≠ [] := by
  cases b with
  | nil => cases hb rfl
  | cons x xs => rw [chunksOf]; simp

theorem getTaskChunks_eq_mkFrames_aux (m' : Nat) (l : List Nat) :
    ∀ (j total : Nat),
      (List.range (chunksOf (m' + 1) l).length).map
        (fun i => TaskResponse.mk total (j + i + 1) ((l.drop (i * (m' + 1))).take (m' + 1)))
      = mkFrames total (j + 1) (chunksOf (m' + 1) l) := by
  induction l using chunksOf.induct (m' + 1) with
  | case1 => intro j total; rw [chunksOf]; rfl
  | case2 x xs ih =>
    intro j total
    rw [chunksOf]
    simp only [Nat.add_sub_cancel] at ih ⊢
    rw [List.length_cons, List.range_succ_eq_map, List.map_cons, List.map_map, mkFrames]
    refine congrArg₂ List.cons ?_ ?_
    · simp [List.take_succ_cons]
    · rw [← ih (j + 1) total]
      refine congrArg (List.map · (List.range (chunksOf (m' + 1) (xs.drop m')).length)) ?_
      funext i
      simp only [Function.comp_apply]
      have h1 : j + (i + 1) + 1 = j + 1 + i + 1 := by omega
      have h2 : (x :: xs).drop ((i + 1) * (m' + 1)) = (xs.drop m').drop (i * (m' + 1)) := by
        rw [List.drop_drop]
        have he : (i + 1) * (m' + 1) = (m' + i * (m' + 1)) + 1 := by ring
        rw [he, List.drop_succ_cons]
      rw [Nat.succ_eq_add_one, h1, h2]

/-- `GetTaskUnary`'s frame sequence is exactly the chunk decomposition of the
payload, with 1-based consecutive iteration numbers and the chunk count in
every frame's `size` field. -/
theorem getTaskChunks_eq_mkFrames (b : List Nat) (m : Nat) (hm : 1 ≤ m) :
    getTaskChunks b m
      = mkFrames (chunksOf m b).length 1 (chunksOf m b) := by
  obtain ⟨m', rfl⟩ : ∃ m'', m = m'' + 1 := ⟨m - 1, by omega⟩
  show (List.range ((b.length + (m' + 1) - 1) / (m' + 1))).map _ = _
  rw [← length_chunksOf (m' + 1) (by omega) b]
  have := getTaskChunks_eq_mkFrames_aux m' b 0 (chunksOf (m' + 1) b).length
  simpa using this

theorem replyTaskRun_mkFrames (ps : List (List Nat)) :
    ps ≠ [] → ∀ (j : Nat) (st : ReplyTaskState),
      List.foldl replyTaskStep st (mkFrames (j + ps.length) (j + 1) ps)
      = { delivered := st.delivered ++ [st.reply ++ joinAll ps], reply := [] } := by
  induction ps with
  | nil => intro h; cases h rfl
  | cons p rest ih =>
    intro _ j st
    rw [mkFrames]
    cases rest with
    | nil =>
      simp [replyTaskStep, joinAll, mkFrames]
    | cons q rest' =>
      rw [List.foldl_cons]
      have hstep : replyTaskStep st ⟨j + (p :: q :: rest').length, j + 1, p⟩
          = { st with reply := st.reply ++ p } := by
        have hne : j + (p :: q :: rest').length ≠ j + 1 := by simp
        simp [replyTaskStep, hne]
      rw [hstep]
      have htot : j + (p :: q :: rest').length = (j + 1) + (q :: rest').length := by
        simp; omega
      rw [htot, ih (List.cons_ne_nil q rest') (j + 1) { st with reply := st.reply ++ p }]
      simp [joinAll]

/-! ### Claims C1, C4, C5 -/

/-- C1 (amended): for every **nonempty** byte buffer `b` and every
`max_frame_bytes ≥ 1`, splitting `b` into ordered frames (frame `i` carrying
`size` = total chunks and `iteration = i`) and pushing those frames in arrival
order into a fresh reassembler yields exactly `b` back; the reassembler
reports completion exactly on the frame whose `iteration` equals `size` (one
single buffer is delivered, on the last frame), after which its accumulator is
reset to empty for the next logical message on the same stream.  The original
claim also covered the empty buffer, but `GetTaskUnary` produces zero frames
for an empty payload (see `C1_counterexample`), so nothing is delivered. -/
theorem C1_chunking_round_trip (b : List Nat) (M : Nat) (hb : b ≠ []) (hM : 1 ≤ M) :
    replyTaskRun (getTaskChunks b M) = { delivered := [b], reply := [] } := by
  rw [replyTaskRun, getTaskChunks_eq_mkFrames b M hM]
  have hcs : chunksOf M b ≠ [] := chunksOf_ne_nil M b hb
  have hrun := replyTaskRun_mkFrames (chunksOf M b) hcs 0 { delivered := [], reply := [] }
  simp only [Nat.zero_add] at hrun
  rw [hrun, joinAll_chunksOf]
  simp

/-- Witness for `C1_chunking_round_trip` at `b = [1, 2, 3]`, `M = 2`
(two full-size frames then a final one-byte frame). -/
theorem C1_chunking_round_trip_witness :
    replyTaskRun (getTaskChunks [1, 2, 3] 2) = { delivered := [[1, 2, 3]], reply := [] } :=
  C1_chunking_round_trip [1, 2, 3] 2 (by decide) (by decide)

/-- C1 counterexample: for the empty buffer with `max_frame_bytes = 1`, the
claimed round trip fails: `GetTaskUnary` yields zero frames, so the
reassembler never completes and the empty buffer is not delivered. -/
theorem C1_counterexample :
    (replyTaskRun (getTaskChunks [] 1)).delivered ≠ [[]] := by decide

/-- C4 (amended): for every payload and `max_frame_bytes ≥ 1`, the split step
produces exactly `⌈len(payload) / max_frame_bytes⌉` frames — **zero** frames
for an empty payload, not one — each frame's payload having length at most
`max_frame_bytes`, carrying the total chunk count in `size` and a 1-based
`iteration` bounded by the number of frames. -/
theorem C4_split_frame_bounds (payload : List Nat) (M : Nat) (hM : 1 ≤ M) :
    (getTaskChunks payload M).length = (payload.length + M - 1) / M
    ∧ (payload = [] → getTaskChunks payload M = [])
    ∧ ∀ f ∈ getTaskChunks payload M,
        f.bytes_.length ≤ M
        ∧ f.size = (payload.length + M - 1) / M
        ∧ 1 ≤ f.iteration ∧ f.iteration ≤ (getTaskChunks payload M).length := by
  refine ⟨by simp [getTaskChunks], ?_, ?_⟩
  · intro h
    subst h
    simp [getTaskChunks, Nat.div_eq_of_lt (show M - 1 < M by omega)]
  · intro f hf
    simp only [getTaskChunks, List.mem_map, List.mem_range] at hf
    obtain ⟨i, hi, rfl⟩ := hf
    refine ⟨List.length_take_le M _, rfl, ?_, ?_⟩
    · show 1 ≤ i + 1
      omega
    · show i + 1 ≤ (getTaskChunks payload M).length
      simp only [getTaskChunks, List.length_map, List.length_range]
      omega

/-- Witness for `C4_split_frame_bounds` at `payload = [1, 2, 3, 4, 5]`,
`M = 2` (three frames: two full, one half). -/
theorem C4_split_frame_bounds_witness :
    (getTaskChunks [1, 2, 3, 4, 5] 2).length = (5 + 2 - 1) / 2
    ∧ (([1, 2, 3, 4, 5] : List Nat) = [] → getTaskChunks [1, 2, 3, 4, 5] 2 = [])
    ∧ ∀ f ∈ getTaskChunks [1, 2, 3, 4, 5] 2,
        f.bytes_.length ≤ 2
        ∧ f.size = (5 + 2 - 1) / 2
        ∧ 1 ≤ f.iteration ∧ f.iteration ≤ (getTaskChunks [1, 2, 3, 4, 5] 2).length :=
  C4_split_frame_bounds [1, 2, 3, 4, 5] 2 (by decide)

/-- C4 counterexample: an empty payload yields **zero** frames, not the single
frame with `total_chunks = 1, chunk_index = 1` stated by the claim
(`range(0, 0, max)` is empty in `GetTaskUnary`'s chunk loop). -/
theorem C4_counterexample : (getTaskChunks [] 1).length ≠ 1 := by decide

/-- C5 (amended): `ReplyTask` performs **no** chunk-index validation and no
`FramingError` exists: pushing a frame whose `chunk_index` skips ahead (frame
1 followed by frame `s` with `s ≥ 3`, skipping the frames in between) is
accepted silently, and because the arriving frame has `iteration = size` the
reassembler delivers the truncated concatenation of the two payloads and
resets, instead of raising an error. -/
theorem C5_skip_silently_delivers (s : Nat) (p q : List Nat) (hs : 3 ≤ s) :
    replyTaskRun [⟨s, 1, p⟩, ⟨s, s, q⟩] = { delivered := [p ++ q], reply := [] } := by
  have h1 : s ≠ 1 := by omega
  simp [replyTaskRun, replyTaskStep, h1]

/-- Witness for `C5_skip_silently_delivers` at `s = 3`: frames 1 and 3 of a
3-chunk message, chunk 2 missing. -/
theorem C5_skip_silently_delivers_witness :
    replyTaskRun [⟨3, 1, [10]⟩, ⟨3, 3, [30]⟩] = { delivered := [[10, 30]], reply := [] } :=
  C5_skip_silently_delivers 3 [10] [30] (by decide)

/-- C5 counterexample: pushing frame 1 then frame 3 of a 3-chunk message does
**not** raise any framing error — the truncated buffer `[10, 30]` (missing
chunk 2, hence different from the full 3-chunk message) is silently delivered
to `Serializer.loads`/`on_reply`. -/
theorem C5_counterexample :
    (replyTaskRun [⟨3, 1, [10]⟩, ⟨3, 3, [30]⟩]).delivered = [[10, 30]]
    ∧ ([10, 30] : List Nat) ≠ [10, 20, 30] := by decide

/-! ## Python values

A small value universe for the message payloads the dispatcher passes around
(model parameters, optimizer auxiliary variables, …): numbers, strings and
string-keyed dicts, with Python truthiness (`0`, `""`, `{}` are falsy). -/

inductive Val : Type where
  | vnat : Nat → Val
  | vstr : String → Val
  | vdict : List (String × Val) → Val

/-- Python truthiness of a `Val` (`if v:`): zero, the empty string and the
empty dict are falsy. -/
def truthy : Val → Bool
  | .vnat n => n ≠ 0
  | .vstr s => s ≠ ""
  | .vdict d => !d.isEmpty

/-- Model of Python `v.get(k)` where `v` is expected to be a dict (the code
only calls it on dict-shaped values; on non-dicts the model returns `none`). -/
def pyGet (v : Val) (k : String) : Option Val :=
  match v with
  | .vdict d => dictGet d k
  | _ => none

/-! ## Round dispatcher (`fedbiomed/researcher/job.py`)

`Job.waiting_for_nodes` (lines 247-261):

```python
try:
    nodes_done = set(responses.dataframe()['node_id'])
except KeyError:
    nodes_done = set()
return not nodes_done == set(self._nodes)
```

`Job._get_training_testing_results` (lines 263-330) loops
`while self.waiting_for_nodes(self._training_replies[round_])` over incoming
messages with commands `train`/`error`; its loop body over one message `m` is
embedded by `trainingResultsStep` below.  `self._nodes.remove(x)` removes the
first occurrence from a Python list, which is `List.erase`. -/

/-- One incoming message collected by the wait loop of
`_get_training_testing_results` (a `train` reply or an `error` message); field
names follow the keys the source reads from `m`. -/
structure TrainReplyMsg where
  command : String
  node_id : String
  researcher_id : String
  job_id : String
  success : Bool
  msg : String
  dataset_id : String
  params : Val
  optimizer_args : Val
  optim_aux_var : List (String × Val)
  sample_size : Nat
  encryption_factor : Val
  timing : List (String × Nat)
  errnum : String
  extra_msg : String

/-- The record appended to `self._training_replies[round_]` for a successful
reply (the `Responses({...})` literal at lines 316-328). -/
structure TrainingReply where
  success : Bool
  msg : String
  dataset_id : String
  node_id : String
  params : Val
  optimizer_args : Val
  optim_aux_var : List (String × Val)
  sample_size : Nat
  encryption_factor : Val
  timing : List (String × Nat)

/-- Round state mutated by the wait loop: `self._nodes` (the participating
node list) and `self._training_replies[round_]`. -/
structure RoundState where
  nodes : List String
  replies : List TrainingReply

/-- The reply record built for message `m`: all fields are copied from `m`,
and `timing['rtime_total'] = time.perf_counter() - timer[m['node_id']]` is
added to the timing dict (`tnow` stands for the `perf_counter()` reading). -/
def mkTrainingReply (timer : String → Nat) (tnow : Nat) (m : TrainReplyMsg) : TrainingReply :=
  { success := m.success
    msg := m.msg
    dataset_id := m.dataset_id
    node_id := m.node_id
    params := m.params
    optimizer_args := m.optimizer_args
    optim_aux_var := m.optim_aux_var
    sample_size := m.sample_size
    encryption_factor := m.encryption_factor
    timing := dictSet m.timing "rtime_total" (tnow - timer m.node_id) }

/-- The body of the `for m in models_done.data()` loop of
`_get_training_testing_results`, processing one message:

* `command == 'error'`: if the sender is not a participating node the message
  is ignored (only a warning is logged), otherwise the faulty node is removed
  from `self._nodes`;
* otherwise, replies whose `researcher_id`/`job_id` do not match the round or
  whose sender is not a participating node are skipped;
* `success == False`: the faulty node is removed from `self._nodes`;
* otherwise the reply record is appended to the round's training replies. -/
def trainingResultsStep (researcherId jobId : String) (timer : String → Nat) (tnow : Nat)
    (st : RoundState) (m : TrainReplyMsg) : RoundState :=
  if m.command = "error" then
    if m.node_id ∉ st.nodes then st
    else { st with nodes := st.nodes.erase m.node_id }
  else if m.researcher_id ≠ researcherId ∨ m.job_id ≠ jobId ∨ m.node_id ∉ st.nodes then st
  else if ¬m.success then { st with nodes := st.nodes.erase m.node_id }
  else { st with replies := st.replies ++ [mkTrainingReply timer tnow m] }

/-- Processing a trace of incoming messages in arrival order. -/
def trainingResultsRun (researcherId jobId : String) (timer : String → Nat) (tnow : Nat)
    (st : RoundState) (msgs : List TrainReplyMsg) : RoundState :=
  msgs.foldl (trainingResultsStep researcherId jobId timer tnow) st

/-- Two string lists with the same elements, i.e. Python `set(a) == set(b)`. -/
def sameElems (a b : List String) : Bool :=
  a.all (b.contains ·) && b.all (a.contains ·)

/-- `Job.waiting_for_nodes`: `True` while at least one participating node has
no recorded reply (`not set(replies node ids) == set(self._nodes)`). -/
def waitingForNodes (nodes : List String) (replies : List TrainingReply) : Bool :=
  ¬sameElems (replies.map (·.node_id)) nodes

/-! ### Claims C2, C6 -/

theorem sameElems_self (l : List String) : sameElems l l = true := by
  simp [sameElems, List.all_eq_true]

/-- C2: dispatching one round to participating nodes `{A, B, C}` where node
`B` reports `success = false` while `A` and `C` reply successfully (matching
`researcher_id`/`job_id`) terminates the wait loop (`waiting_for_nodes`
becomes `false`, so the `while` loop exits instead of hanging), records
exactly the replies of `A` and `C` in the round's training replies, removes
`B` from the participating node list, and therefore
`start_nodes_training_round` returns the remaining node set `[A, C]`
(it returns `self._nodes`, i.e. `final.nodes`). -/
theorem C2_round_partial_failure
    (A B C R J : String) (hAB : A ≠ B) (hAC : A ≠ C) (hBC : B ≠ C)
    (timer : String → Nat) (tnow : Nat) (mA mB mC : TrainReplyMsg)
    (hA : mA.command = "train" ∧ mA.node_id = A ∧ mA.researcher_id = R
          ∧ mA.job_id = J ∧ mA.success = true)
    (hB : mB.command = "train" ∧ mB.node_id = B ∧ mB.researcher_id = R
          ∧ mB.job_id = J ∧ mB.success = false)
    (hC : mC.command = "train" ∧ mC.node_id = C ∧ mC.researcher_id = R
          ∧ mC.job_id = J ∧ mC.success = true) :
    (trainingResultsRun R J timer tnow ⟨[A, B, C], []⟩ [mA, mB, mC]).nodes = [A, C]
    ∧ (trainingResultsRun R J timer tnow ⟨[A, B, C], []⟩ [mA, mB, mC]).replies
        = [mkTrainingReply timer tnow mA, mkTrainingReply timer tnow mC]
    ∧ waitingForNodes
        (trainingResultsRun R J timer tnow ⟨[A, B, C], []⟩ [mA, mB, mC]).nodes
        (trainingResultsRun R J timer tnow ⟨[A, B, C], []⟩ [mA, mB, mC]).replies
      = false := by
  obtain ⟨hA1, hA2, hA3, hA4, hA5⟩ := hA
  obtain ⟨hB1, hB2, hB3, hB4, hB5⟩ := hB
  obtain ⟨hC1, hC2, hC3, hC4, hC5⟩ := hC
  have hab : (A == B) = false := beq_eq_false_iff_ne.mpr hAB
  have hbb : (B == B) = true := beq_self_eq_true B
  have s1 : trainingResultsStep R J timer tnow ⟨[A, B, C], []⟩ mA
      = ⟨[A, B, C], [mkTrainingReply timer tnow mA]⟩ := by
    simp [trainingResultsStep, hA1, hA2, hA3, hA4, hA5]
  have s2 : trainingResultsStep R J timer tnow ⟨[A, B, C], [mkTrainingReply timer tnow mA]⟩ mB
      = ⟨[A, C], [mkTrainingReply timer tnow mA]⟩ := by
    simp [trainingResultsStep, hB1, hB2, hB3, hB4, hB5, List.erase_cons, hab, hbb]
  have s3 : trainingResultsStep R J timer tnow ⟨[A, C], [mkTrainingReply timer tnow mA]⟩ mC
      = ⟨[A, C], [mkTrainingReply timer tnow mA, mkTrainingReply timer tnow mC]⟩ := by
    simp [trainingResultsStep, hC1, hC2, hC3, hC4, hC5]
  have hrun : trainingResultsRun R J timer tnow ⟨[A, B, C], []⟩ [mA, mB, mC]
      = ⟨[A, C], [mkTrainingReply timer tnow mA, mkTrainingReply timer tnow mC]⟩ := by
    simp only [trainingResultsRun, List.foldl_cons, List.foldl_nil, s1, s2, s3]
  refine ⟨by rw [hrun], by rw [hrun], ?_⟩
  rw [hrun]
  show waitingForNodes [A, C] _ = false
  simp [waitingForNodes, mkTrainingReply, hA2, hC2, sameElems_self]

/-- Witness for `C2_round_partial_failure` with nodes `alice`, `bob`, `carol`
and concrete message contents. -/
theorem C2_round_partial_failure_witness :
    (trainingResultsRun "r1" "j1" (fun _ => 0) 0
        ⟨["alice", "bob", "carol"], []⟩
        [{ command := "train", node_id := "alice", researcher_id := "r1", job_id := "j1",
           success := true, msg := "", dataset_id := "dA", params := .vnat 1,
           optimizer_args := .vnat 0, optim_aux_var := [], sample_size := 5,
           encryption_factor := .vnat 0, timing := [], errnum := "", extra_msg := "" },
         { command := "train", node_id := "bob", researcher_id := "r1", job_id := "j1",
           success := false, msg := "boom", dataset_id := "dB", params := .vnat 2,
           optimizer_args := .vnat 0, optim_aux_var := [], sample_size := 5,
           encryption_factor := .vnat 0, timing := [], errnum := "", extra_msg := "" },
         { command := "train", node_id := "carol", researcher_id := "r1", job_id := "j1",
           success := true, msg := "", dataset_id := "dC", params := .vnat 3,
           optimizer_args := .vnat 0, optim_aux_var := [], sample_size := 5,
           encryption_factor := .vnat 0, timing := [], errnum := "", extra_msg := "" }]).nodes
      = ["alice", "carol"] :=
  (C2_round_partial_failure "alice" "bob" "carol" "r1" "j1"
    (by decide) (by decide) (by decide) (fun _ => 0) 0 _ _ _
    ⟨rfl, rfl, rfl, rfl, rfl⟩ ⟨rfl, rfl, rfl, rfl, rfl⟩ ⟨rfl, rfl, rfl, rfl, rfl⟩).1

/-- C6: within one round the participating node list only shrinks: every step
of the reply-processing loop leaves `self._nodes` a sublist of what it was
(so nothing is ever re-added: a node absent from `self._nodes` stays absent
over any later message trace), and any reply or error message arriving from a
node that is not in the current participating set leaves the round state
(recorded replies and node list) entirely unchanged. -/
theorem C6_monotone_removal (rid jid : String) (timer : String → Nat) (tnow : Nat) :
    (∀ (st : RoundState) (m : TrainReplyMsg),
       (trainingResultsStep rid jid timer tnow st m).nodes.Sublist st.nodes)
    ∧ (∀ (st : RoundState) (msgs : List TrainReplyMsg) (x : String),
       x ∉ st.nodes → x ∉ (trainingResultsRun rid jid timer tnow st msgs).nodes)
    ∧ (∀ (st : RoundState) (m : TrainReplyMsg),
       m.node_id ∉ st.nodes → trainingResultsStep rid jid timer tnow st m = st) := by
  have hstep : ∀ (st : RoundState) (m : TrainReplyMsg),
      (trainingResultsStep rid jid timer tnow st m).nodes.Sublist st.nodes := by
    intro st m
    unfold trainingResultsStep
    by_cases h1 : m.command = "error"
    · by_cases h2 : m.node_id ∉ st.nodes
      · simp [h1, h2]
      · simp [h1, h2]
        exact List.erase_sublist _ _
    · by_cases h2 : m.researcher_id ≠ rid ∨ m.job_id ≠ jid ∨ m.node_id ∉ st.nodes
      · simp [h1, h2]
      · by_cases h3 : ¬m.success
        · simp [h1, h2, h3]
          exact List.erase_sublist _ _
        · simp [h1, h2, h3]
  refine ⟨hstep, ?_, ?_⟩
  · intro st msgs
    induction msgs generalizing st with
    | nil => intro x hx; exact hx
    | cons m rest ih =>
      intro x hx
      exact ih _ x (fun hmem => hx ((hstep st m).subset hmem))
  · intro st m hm
    unfold trainingResultsStep
    by_cases h1 : m.command = "error"
    · simp [h1, hm]
    · simp [h1, hm]

/-- Witness for `C6_monotone_removal`: a reply from the non-participating
node `bob` leaves the round state unchanged, and `bob` cannot enter the node
list over a message trace. -/
theorem C6_monotone_removal_witness :
    trainingResultsStep "r1" "j1" (fun _ => 0) 0 ⟨["alice"], []⟩
        { command := "train", node_id := "bob", researcher_id := "r1", job_id := "j1",
          success := true, msg := "", dataset_id := "", params := .vnat 0,
          optimizer_args := .vnat 0, optim_aux_var := [], sample_size := 0,
          encryption_factor := .vnat 0, timing := [], errnum := "", extra_msg := "" }
      = ⟨["alice"], []⟩ :=
  (C6_monotone_removal "r1" "j1" (fun _ => 0) 0).2.2 ⟨["alice"], []⟩ _ (by decide)

/-! ## Optimizer auxiliary-variable fan-out
(`Job._prepare_agg_optimizer_aux_var`, lines 413-451)

```python
aux_shared = {}
aux_bynode = {}
for node_id in nodes:
    aux_bynode[node_id] = {}
    for mod_name, mod_info in aux_var.items():
        if node_aux := mod_info.get(str(node_id)):
            aux_bynode[node_id][mod_name] = node_aux
        elif mod_name not in aux_shared:
            aux_shared[mod_name] = mod_info
return aux_shared, aux_bynode
```

and `Job.start_nodes_training_round` (line 397) embeds
`msg['aux_vars'] = [aux_shared, aux_bynode.get(node, None)]` in the task
message of each node. -/

/-- `truthyGet v k`: the condition of the walrus test
`if node_aux := mod_info.get(k)` — the key is present *and* its value is
truthy. -/
def truthyGet (v : Val) (k : String) : Bool :=
  match pyGet v k with
  | some w => truthy w
  | none => false

/-- Body of the inner `for mod_name, mod_info in aux_var.items()` loop; the
state is the pair (`aux_shared`, the dict being built for the current node). -/
def prepAuxInner (node : String) (st : List (String × Val) × List (String × Val))
    (modEntry : String × Val) : List (String × Val) × List (String × Val) :=
  match pyGet modEntry.2 node with
  | some v =>
    if truthy v then (st.1, dictSet st.2 modEntry.1 v)
    else if (dictGet st.1 modEntry.1).isNone then (st.1 ++ [modEntry], st.2) else st
  | none =>
    if (dictGet st.1 modEntry.1).isNone then (st.1 ++ [modEntry], st.2) else st

/-- Body of the outer `for node_id in nodes` loop; the state is the pair
(`aux_shared`, `aux_bynode`). -/
def prepAuxOuter (auxVar : List (String × Val))
    (st : List (String × Val) × List (String × List (String × Val)))
    (node : String) : List (String × Val) × List (String × List (String × Val)) :=
  let inner := auxVar.foldl (prepAuxInner node) (st.1, [])
  (inner.1, dictSet st.2 node inner.2)

/-- `Job._prepare_agg_optimizer_aux_var`: returns (`aux_shared`, `aux_bynode`). -/
def prepareAggOptimizerAuxVar (auxVar : List (String × Val)) (nodes : List String) :
    List (String × Val) × List (String × List (String × Val)) :=
  nodes.foldl (prepAuxOuter auxVar) ([], [])

/-- The `aux_vars` slot embedded in the task message for `node`
(`[aux_shared, aux_bynode.get(node, None)]` at line 397). -/
def msgAuxVars (auxVar : List (String × Val)) (nodes : List String) (node : String) :
    List (String × Val) × Option (List (String × Val)) :=
  ((prepareAggOptimizerAuxVar auxVar nodes).1,
   dictGet (prepareAggOptimizerAuxVar auxVar nodes).2 node)

/-! ### Claim C3 -/

/-- C3 counterexample: with auxiliary variables
`{'scaffold': {'A': 1}}` and participating nodes `[A, B]`, the module
`scaffold` is per-node for `A` but has no entry for `B`, so while processing
`B` it falls through to the **shared** dict together with `A`'s value; the
message for `B` therefore embeds (in its shared slot) the per-node auxiliary
value that the researcher keyed by node `A ≠ B`. -/
theorem C3_counterexample :
    (msgAuxVars [("scaffold", Val.vdict [("A", Val.vnat 1)])] ["A", "B"] "B").1
        = [("scaffold", Val.vdict [("A", Val.vnat 1)])]
    ∧ pyGet (Val.vdict [("A", Val.vnat 1)]) "A" = some (Val.vnat 1)
    ∧ ("A" : String) ≠ "B" ∧ "A" ∈ ["A", "B"] :=
  ⟨rfl, rfl, by decide, by decide⟩

/-- C3 (amended): provided every module of the auxiliary-variable mapping is
either per-node for **all** participating nodes (a truthy entry for each) or
per-node for none of them, the task message built for a node `n` embeds only
the shared component plus `n`'s own per-node component:

* every module dict in the shared slot comes unchanged from the input and
  carries no (truthy) entry for any participating node, and
* every value in `n`'s per-node slot is a value the input assigned to `n`
  itself.

Without that coverage hypothesis the property fails (`C3_counterexample`):
a module that is per-node for one node but lacks an entry for another leaks
the former's value into the shared dict sent to everyone. -/
theorem C3_aux_var_no_leak (auxVar : List (String × Val)) (nodes : List String)
    (hcov : ∀ me ∈ auxVar, (∀ k ∈ nodes, truthyGet me.2 k = true)
                         ∨ (∀ k ∈ nodes, truthyGet me.2 k = false)) :
    (∀ me ∈ (prepareAggOptimizerAuxVar auxVar nodes).1,
        me ∈ auxVar ∧ ∀ k ∈ nodes, truthyGet me.2 k = false)
    ∧ (∀ (n : String) (d : List (String × Val)),
        dictGet (prepareAggOptimizerAuxVar auxVar nodes).2 n = some d →
        ∀ p ∈ d, ∃ info, (p.1, info) ∈ auxVar ∧ pyGet info n = some p.2
                         ∧ truthy p.2 = true) := by
  have main : (∀ me ∈ (prepareAggOptimizerAuxVar auxVar nodes).1,
        me ∈ auxVar ∧ ∀ k ∈ nodes, truthyGet me.2 k = false)
      ∧ ∀ nd ∈ (prepareAggOptimizerAuxVar auxVar nodes).2,
        ∀ p ∈ nd.2, ∃ info, (p.1, info) ∈ auxVar ∧ pyGet info nd.1 = some p.2
                            ∧ truthy p.2 = true := by
    unfold prepareAggOptimizerAuxVar
    refine List.foldlRecOn
      (motive := fun (st : List (String × Val) × List (String × List (String × Val))) =>
        (∀ me ∈ st.1, me ∈ auxVar ∧ ∀ k ∈ nodes, truthyGet me.2 k = false)
        ∧ ∀ nd ∈ st.2, ∀ p ∈ nd.2, ∃ info, (p.1, info) ∈ auxVar
            ∧ pyGet info nd.1 = some p.2 ∧ truthy p.2 = true)
      nodes (prepAuxOuter auxVar) ([], []) ⟨by simp, by simp⟩ ?_
    rintro ⟨shared, bynode⟩ ⟨ihS, ihB⟩ node hnode
    have inner : (∀ me ∈ (List.foldl (prepAuxInner node) (shared, []) auxVar).1,
          me ∈ auxVar ∧ ∀ k ∈ nodes, truthyGet me.2 k = false)
        ∧ ∀ p ∈ (List.foldl (prepAuxInner node) (shared, []) auxVar).2,
          ∃ info, (p.1, info) ∈ auxVar ∧ pyGet info node = some p.2
                  ∧ truthy p.2 = true := by
      refine List.foldlRecOn
        (motive := fun (st : List (String × Val) × List (String × Val)) =>
          (∀ me ∈ st.1, me ∈ auxVar ∧ ∀ k ∈ nodes, truthyGet me.2 k = false)
          ∧ ∀ p ∈ st.2, ∃ info, (p.1, info) ∈ auxVar ∧ pyGet info node = some p.2
              ∧ truthy p.2 = true)
        auxVar (prepAuxInner node) (shared, []) ⟨ihS, by simp⟩ ?_
      rintro ⟨sh, nd⟩ ⟨ihS', ihN'⟩ me hme
      have hshared : ∀ (w : List (String × Val)),
          truthyGet me.2 node = false →
          (∀ p ∈ nd, ∃ info, (p.1, info) ∈ auxVar ∧ pyGet info node = some p.2
                             ∧ truthy p.2 = true) →
          (∀ x ∈ sh ++ [me], x ∈ auxVar ∧ ∀ k ∈ nodes, truthyGet x.2 k = false) := by
        intro _ hfalse _ x hx
        rcases List.mem_append.mp hx with hx1 | hx2
        · exact ihS' x hx1
        · have hxme : x = me := by simpa using hx2
          subst hxme
          refine ⟨hme, ?_⟩
          rcases hcov x hme with hall | hnone
          · exact absurd (hall node hnode) (by simp [hfalse])
          · exact hnone
      unfold prepAuxInner
      cases hg : pyGet me.2 node with
      | some v =>
        by_cases ht : truthy v
        · simp only [hg, if_pos ht]
          refine ⟨ihS', ?_⟩
          intro p hp
          rcases mem_dictSet hp with hpv | hpnd
          · subst hpv
            exact ⟨me.2, hme, hg, ht⟩
          · exact ihN' p hpnd
        · have hfalse : truthyGet me.2 node = false := by
            simp [truthyGet, hg, ht]
          simp only [hg, if_neg ht]
          by_cases hin : (dictGet sh me.1).isNone
          · simp only [if_pos hin]
            exact ⟨hshared [] hfalse ihN', ihN'⟩
          · simp only [if_neg hin]
            exact ⟨ihS', ihN'⟩
      | none =>
        have hfalse : truthyGet me.2 node = false := by
          simp [truthyGet, hg]
        simp only [hg]
        by_cases hin : (dictGet sh me.1).isNone
        · simp only [if_pos hin]
          exact ⟨hshared [] hfalse ihN', ihN'⟩
        · simp only [if_neg hin]
          exact ⟨ihS', ihN'⟩
    refine ⟨inner.1, ?_⟩
    intro nd hnd p hp
    rcases mem_dictSet hnd with hnew | hold
    · subst hnew
      exact inner.2 p hp
    · exact ihB nd hold p hp
  refine ⟨main.1, ?_⟩
  intro n d hd p hp
  exact main.2 (n, d) (dictGet_mem hd) p hp

/-- Witness for `C3_aux_var_no_leak`: `scaffold` is per-node for both
participating nodes, `momentum` is shared (no node-keyed entry). -/
theorem C3_aux_var_no_leak_witness :
    (∀ me ∈ (prepareAggOptimizerAuxVar
        [("scaffold", Val.vdict [("a", Val.vnat 1), ("b", Val.vnat 2)]),
         ("momentum", Val.vdict [("lr", Val.vnat 3)])] ["a", "b"]).1,
        me ∈ [("scaffold", Val.vdict [("a", Val.vnat 1), ("b", Val.vnat 2)]),
              ("momentum", Val.vdict [("lr", Val.vnat 3)])]
        ∧ ∀ k ∈ ["a", "b"], truthyGet me.2 k = false)
    ∧ (∀ (n : String) (d : List (String × Val)),
        dictGet (prepareAggOptimizerAuxVar
          [("scaffold", Val.vdict [("a", Val.vnat 1), ("b", Val.vnat 2)]),
           ("momentum", Val.vdict [("lr", Val.vnat 3)])] ["a", "b"]).2 n = some d →
        ∀ p ∈ d, ∃ info,
          (p.1, info) ∈ [("scaffold", Val.vdict [("a", Val.vnat 1), ("b", Val.vnat 2)]),
                         ("momentum", Val.vdict [("lr", Val.vnat 3)])]
          ∧ pyGet info n = some p.2 ∧ truthy p.2 = true) :=
  C3_aux_var_no_leak
    [("scaffold", Val.vdict [("a", Val.vnat 1), ("b", Val.vnat 2)]),
     ("momentum", Val.vdict [("lr", Val.vnat 3)])] ["a", "b"] (by decide)

/-! ## Aggregation-time restructuring
(`Job.extract_received_optimizer_aux_var_from_round`, lines 453-472)

```python
aux_var = {}
for reply in self.training_replies[round_id]:
    node_id = reply["node_id"]
    node_av = reply.get("optim_aux_var", {})
    for module, params in node_av.items():
        aux_var.setdefault(module, {})[node_id] = params
return aux_var
```
-/

/-- `Job.extract_received_optimizer_aux_var_from_round` over the reply records
of one round: regroups `{node_id: {module: value}}` into
`{module: {node_id: value}}`. -/
def extractReceivedOptimizerAuxVar (replies : List TrainingReply) :
    List (String × List (String × Val)) :=
  replies.foldl
    (fun auxVar r =>
      r.optim_aux_var.foldl
        (fun av mp =>
          dictSet av mp.1 (dictSet ((dictGet av mp.1).getD []) r.node_id mp.2))
        auxVar)
    []

/-- The inner-loop body of `extract_received_optimizer_aux_var_from_round`
(`aux_var.setdefault(module, {})[node_id] = params`), named so the fold can
be reasoned about; `extractReceivedOptimizerAuxVar` unfolds to these steps
definitionally (`extract_eq_foldl`). -/
def extractInnerStep (r : TrainingReply) (av : List (String × List (String × Val)))
    (mp : String × Val) : List (String × List (String × Val)) :=
  dictSet av mp.1 (dictSet ((dictGet av mp.1).getD []) r.node_id mp.2)

/-- The outer-loop body (`for reply in self.training_replies[round_id]`). -/
def extractOuterStep (av : List (String × List (String × Val))) (r : TrainingReply) :
    List (String × List (String × Val)) :=
  r.optim_aux_var.foldl (extractInnerStep r) av

theorem extract_eq_foldl (replies : List TrainingReply) :
    extractReceivedOptimizerAuxVar replies = replies.foldl extractOuterStep [] := rfl

theorem stable_extractInnerStep (r : TrainingReply)
    (av : List (String × List (String × Val))) (mp : String × Val)
    (mname nid : String) (v : Val) (hnid : nid ≠ r.node_id)
    (h : ∃ d, dictGet av mname = some d ∧ dictGet d nid = some v) :
    ∃ d, dictGet (extractInnerStep r av mp) mname = some d ∧ dictGet d nid = some v := by
  obtain ⟨d, hd, hv⟩ := h
  unfold extractInnerStep
  by_cases hm : mp.1 = mname
  · subst hm
    rw [hd]
    refine ⟨dictSet d r.node_id mp.2, ?_, ?_⟩
    · exact dictGet_dictSet_self av mp.1 _
    · rw [dictGet_dictSet_ne d r.node_id nid mp.2 hnid]
      exact hv
  · rw [dictGet_dictSet_ne av mp.1 mname _ (Ne.symm hm)]
    exact ⟨d, hd, hv⟩

theorem stable_extractInner_fold (r : TrainingReply) (mods : List (String × Val))
    (mname nid : String) (v : Val) (hnid : nid ≠ r.node_id) :
    ∀ av, (∃ d, dictGet av mname = some d ∧ dictGet d nid = some v) →
      ∃ d, dictGet (mods.foldl (extractInnerStep r) av) mname = some d
           ∧ dictGet d nid = some v := by
  induction mods with
  | nil => exact fun av h => h
  | cons mp rest ih =>
    intro av h
    rw [List.foldl_cons]
    exact ih _ (stable_extractInnerStep r av mp mname nid v hnid h)

theorem preserve_extractInner_fold_ne_mod (r : TrainingReply)
    (mods : List (String × Val)) (mname : String)
    (hmods : ∀ mq ∈ mods, mq.1 ≠ mname) :
    ∀ av, dictGet (mods.foldl (extractInnerStep r) av) mname = dictGet av mname := by
  induction mods with
  | nil => exact fun av => rfl
  | cons mq rest ih =>
    intro av
    rw [List.foldl_cons, ih (fun x hx => hmods x (List.mem_cons_of_mem mq hx))]
    unfold extractInnerStep
    exact dictGet_dictSet_ne av mq.1 mname _
      (Ne.symm (hmods mq (List.mem_cons_self mq rest)))

theorem establish_extractInner (r : TrainingReply) (mods : List (String × Val))
    (hnodup : (mods.map Prod.fst).Nodup) :
    ∀ av, ∀ mp ∈ mods, ∃ d,
      dictGet (mods.foldl (extractInnerStep r) av) mp.1 = some d
      ∧ dictGet d r.node_id = some mp.2 := by
  induction mods with
  | nil => intro av mp h; cases h
  | cons mq rest ih =>
    intro av mp hmp
    rw [List.foldl_cons]
    rcases List.mem_cons.mp hmp with rfl | hmem
    · simp only [List.map_cons, List.nodup_cons] at hnodup
      have hkeys : ∀ mz ∈ rest, mz.1 ≠ mp.1 := by
        intro mz hz hc
        exact hnodup.1 (hc ▸ List.mem_map_of_mem Prod.fst hz)
      rw [preserve_extractInner_fold_ne_mod r rest mp.1 hkeys (extractInnerStep r av mp)]
      unfold extractInnerStep
      exact ⟨dictSet ((dictGet av mp.1).getD []) r.node_id mp.2,
        dictGet_dictSet_self av mp.1 _, dictGet_dictSet_self _ r.node_id mp.2⟩
    · simp only [List.map_cons, List.nodup_cons] at hnodup
      exact ih hnodup.2 (extractInnerStep r av mq) mp hmem

theorem stable_extractOuter_fold (rs : List TrainingReply) (mname nid : String) (v : Val)
    (hnid : ∀ r' ∈ rs, r'.node_id ≠ nid) :
    ∀ av, (∃ d, dictGet av mname = some d ∧ dictGet d nid = some v) →
      ∃ d, dictGet (rs.foldl extractOuterStep av) mname = some d
           ∧ dictGet d nid = some v := by
  induction rs with
  | nil => exact fun av h => h
  | cons r rest ih =>
    intro av h
    rw [List.foldl_cons]
    refine ih (fun x hx => hnid x (List.mem_cons_of_mem r hx)) _ ?_
    exact stable_extractInner_fold r r.optim_aux_var mname nid v
      (fun hc => hnid r (List.mem_cons_self r rest) hc.symm) av h

theorem establish_extractOuter (rs : List TrainingReply)
    (hnodes : (rs.map (·.node_id)).Nodup)
    (hmods : ∀ r ∈ rs, (r.optim_aux_var.map Prod.fst).Nodup) :
    ∀ av, ∀ r ∈ rs, ∀ mp ∈ r.optim_aux_var,
      ∃ d, dictGet (rs.foldl extractOuterStep av) mp.1 = some d
           ∧ dictGet d r.node_id = some mp.2 := by
  induction rs with
  | nil => intro av r h; cases h
  | cons r0 rest ih =>
    intro av r hr mp hmp
    rw [List.foldl_cons]
    simp only [List.map_cons, List.nodup_cons] at hnodes
    rcases List.mem_cons.mp hr with rfl | hmem
    · have hne : ∀ r' ∈ rest, r'.node_id ≠ r.node_id := by
        intro r' hr' hc
        exact hnodes.1 (hc ▸ List.mem_map_of_mem (·.node_id) hr')
      refine stable_extractOuter_fold rest mp.1 r.node_id mp.2 hne _ ?_
      exact establish_extractInner r r.optim_aux_var
        (hmods r (List.mem_cons_self _ _)) av mp hmp
    · exact ih hnodes.2 (fun x hx => hmods x (List.mem_cons_of_mem r0 hx))
        (extractOuterStep av r0) r hmem mp hmp

/-! ### Claim C8 -/

/-- C8: the aggregation-time restructuring regroups **every** per-node
auxiliary-variable mapping of shape `{node_id: {module_name: value}}` into
`{module_name: {node_id: value}}`:

* (concrete instance from the claim) input
  `{alice: {'scaffold': {'delta': 1}}, bob: {'scaffold': {'delta': 2}}}`
  produces `{'scaffold': {'alice': {'delta': 1}, 'bob': {'delta': 2}}}`;
* (soundness) every value the result files under module `mname` and node
  `p.1` is exactly the value that node's reply carried for `mname` — the
  step invents nothing, and it is a pure fold in this embedding, mirroring a
  loop that only mutates its local `aux_var`;
* (completeness) on faithful inputs — node ids pairwise distinct across
  replies and module names distinct within each reply's dict, as Python
  dict/reply semantics guarantee — every module value of every reply appears
  in the output, filed under that module and that node. -/
theorem C8_aux_var_reshape :
    (extractReceivedOptimizerAuxVar
        [{ success := true, msg := "", dataset_id := "", node_id := "alice",
           params := .vnat 0, optimizer_args := .vnat 0,
           optim_aux_var := [("scaffold", Val.vdict [("delta", Val.vnat 1)])],
           sample_size := 0, encryption_factor := .vnat 0, timing := [] },
         { success := true, msg := "", dataset_id := "", node_id := "bob",
           params := .vnat 0, optimizer_args := .vnat 0,
           optim_aux_var := [("scaffold", Val.vdict [("delta", Val.vnat 2)])],
           sample_size := 0, encryption_factor := .vnat 0, timing := [] }]
      = [("scaffold", [("alice", Val.vdict [("delta", Val.vnat 1)]),
                       ("bob", Val.vdict [("delta", Val.vnat 2)])])])
    ∧ (∀ (replies : List TrainingReply) (mname : String) (d : List (String × Val)),
        (mname, d) ∈ extractReceivedOptimizerAuxVar replies →
        ∀ p ∈ d, ∃ r ∈ replies, r.node_id = p.1 ∧ (mname, p.2) ∈ r.optim_aux_var)
    ∧ (∀ (replies : List TrainingReply),
        (replies.map (·.node_id)).Nodup →
        (∀ r ∈ replies, (r.optim_aux_var.map Prod.fst).Nodup) →
        ∀ r ∈ replies, ∀ mp ∈ r.optim_aux_var,
          ∃ d, dictGet (extractReceivedOptimizerAuxVar replies) mp.1 = some d
               ∧ dictGet d r.node_id = some mp.2) := by
  refine ⟨rfl, ?_, ?_⟩
  case refine_2 =>
    intro replies hnodes hmods r hr mp hmp
    rw [extract_eq_foldl]
    exact establish_extractOuter replies hnodes hmods [] r hr mp hmp
  intro replies
  unfold extractReceivedOptimizerAuxVar
  refine List.foldlRecOn
    (motive := fun (av : List (String × List (String × Val))) =>
      ∀ (mname : String) (d : List (String × Val)), (mname, d) ∈ av →
        ∀ p ∈ d, ∃ r ∈ replies, r.node_id = p.1 ∧ (mname, p.2) ∈ r.optim_aux_var)
    replies _ [] (by simp) ?_
  rintro av ih r hr
  refine List.foldlRecOn
    (motive := fun (av : List (String × List (String × Val))) =>
      ∀ (mname : String) (d : List (String × Val)), (mname, d) ∈ av →
        ∀ p ∈ d, ∃ r ∈ replies, r.node_id = p.1 ∧ (mname, p.2) ∈ r.optim_aux_var)
    r.optim_aux_var _ av ih ?_
  rintro av' ih' mp hmp mname d hmem p hp
  rcases mem_dictSet hmem with heq | hold
  · injection heq with h1 h2
    subst h1
    subst h2
    rcases mem_dictSet hp with hpeq | hpcur
    · subst hpeq
      refine ⟨r, hr, rfl, ?_⟩
      have : (mp.1, mp.2) = mp := rfl
      rw [this]
      exact hmp
    · cases hg : dictGet av' mp.1 with
      | some c =>
        rw [hg] at hpcur
        exact ih' mp.1 c (dictGet_mem hg) p hpcur
      | none =>
        rw [hg] at hpcur
        simp at hpcur
  · exact ih' mname d hold p hp

/-- A concrete one-reply round (alice carrying one `scaffold` auxiliary
value), used to instantiate `C8_aux_var_reshape`. -/
def c8AliceReply : TrainingReply :=
  { success := true, msg := "", dataset_id := "", node_id := "alice",
    params := .vnat 0, optimizer_args := .vnat 0,
    optim_aux_var := [("scaffold", Val.vdict [("delta", Val.vnat 1)])],
    sample_size := 0, encryption_factor := .vnat 0, timing := [] }

/-- Witness for the general parts of `C8_aux_var_reshape`: on alice's
one-reply round, the value filed under `scaffold`/`alice` comes from alice's
reply (soundness), and alice's `scaffold` value does appear in the output
under `scaffold`/`alice` (completeness, distinctness side conditions
discharged by `decide`). -/
theorem C8_aux_var_reshape_witness :
    (∃ r ∈ [c8AliceReply],
      r.node_id = "alice"
      ∧ ("scaffold", Val.vdict [("delta", Val.vnat 1)]) ∈ r.optim_aux_var)
    ∧ (∃ d, dictGet (extractReceivedOptimizerAuxVar [c8AliceReply]) "scaffold" = some d
        ∧ dictGet d "alice" = some (Val.vdict [("delta", Val.vnat 1)])) :=
  ⟨C8_aux_var_reshape.2.1 [c8AliceReply]
    "scaffold" [("alice", Val.vdict [("delta", Val.vnat 1)])]
    (List.Mem.head _) ("alice", Val.vdict [("delta", Val.vnat 1)]) (List.Mem.head _),
   C8_aux_var_reshape.2.2 [c8AliceReply]
    (by decide) (by decide) _ (List.Mem.head _)
    ("scaffold", Val.vdict [("delta", Val.vnat 1)]) (List.Mem.head _)⟩

/-! ## Breakpoint preparation
(`Job._save_training_replies` lines 597-619, `Job.update_parameters` lines
528-542, `Job.save_state` lines 544-577)

`_save_training_replies` deep-copies each round's reply dicts and deletes the
`params` key from every record (`del node['params']`); the deep copy makes it
a pure function of the in-memory replies, which are left untouched.
`update_parameters` serializes the aggregated parameters to a fresh side file
(`Serializer.dump(params, filename)`) and records only its path in
`self._model_params_file`.  `save_state` builds the `state` dict (lines
558-563), replaces `state['model_params_path']` by a link path (line 565),
and then rewrites every stripped reply record's `params_path` through
`create_unique_file_link` (lines 570-575):

```python
for round_replies in state['training_replies']:
    for response in round_replies:
        node_params_path = create_unique_file_link(
            breakpoint_path, response['params_path']
        )
        response['params_path'] = node_params_path
```

`response['params_path']` raises `KeyError` when the key is absent — and the
reply records this code version builds in `_get_training_testing_results`
have **no** `params_path` key (the line recording it, job.py:321, is
commented out), while `_load_training_replies` (line 639) and `save_state`
both still expect it. -/

/-- `Job._save_training_replies`: per round, per record, remove the `params`
entry (the in-memory `trainingReplies` argument is not modified — the source
operates on a `copy.deepcopy`, the embedding is pure). -/
def saveTrainingReplies (trainingReplies : List (List (List (String × Val)))) :
    List (List (List (String × Val))) :=
  trainingReplies.map fun rnd => rnd.map fun node => delKey node "params"

/-- The job attributes `save_state`/`update_parameters` read and write. -/
structure JobState where
  researcher_id : String
  job_id : String
  model_params_file : String
  training_replies : List (List (List (String × Val)))

/-- `Job.update_parameters`: dump `params` into the fresh side file
`filename` (the `aggregated_params_<uuid>.mpk` path) on the file store `fs`,
record the path in `model_params_file`, and return the filename. -/
def updateParameters (job : JobState) (fs : List (String × Val)) (params : Val)
    (filename : String) : JobState × List (String × Val) × String :=
  ({ job with model_params_file := filename }, dictSet fs filename params, filename)

/-- The `state` dict built by `save_state` (lines 558-563). -/
structure BreakpointState where
  researcher_id : String
  job_id : String
  model_params_path : String
  training_replies : List (List (List (String × Val)))

/-- The `state` dict literal of `save_state` (lines 558-563 only — the
link-rewriting steps of lines 565-575 follow in `saveState` below):
aggregated model parameters are referenced through the `model_params_path`
string. -/
def saveStateRecord (job : JobState) : BreakpointState :=
  { researcher_id := job.researcher_id
    job_id := job.job_id
    model_params_path := job.model_params_file
    training_replies := saveTrainingReplies job.training_replies }

/-- Lines 572-575 of `save_state` for one stripped reply record:
`response['params_path']` (a `KeyError` when the key is absent), pass it to
`create_unique_file_link`, and overwrite `response['params_path']` with the
returned link path. -/
def rewriteParamsPath (linkFile : String → String) (response : List (String × Val)) :
    Except String (List (String × Val)) :=
  match dictGet response "params_path" with
  | some (Val.vstr p) => .ok (dictSet response "params_path" (Val.vstr (linkFile p)))
  | some _ => .error "TypeError: params_path is not a path string"
  | none => .error "KeyError: 'params_path'"

/-- `Job.save_state` (lines 544-577): build the `state` dict, replace
`model_params_path` by its breakpoint link (line 565), then rewrite every
reply record's `params_path` (lines 570-575); an uncaught exception in that
loop is returned as `.error`.  The filesystem link helpers
`create_unique_link`/`create_unique_file_link`
(`fedbiomed/researcher/filetools.py`, not under `src/`) are abstracted as
arbitrary path-rewriting functions `linkAgg`/`linkFile`; the theorem below
holds for every choice of them, so nothing rests on their behaviour. -/
def saveState (linkAgg linkFile : String → String) (job : JobState) :
    Except String BreakpointState :=
  let state := saveStateRecord job
  let mpp := linkAgg state.model_params_path
  match state.training_replies.mapM (fun rnd => rnd.mapM (rewriteParamsPath linkFile)) with
  | .ok newReplies =>
      .ok { state with model_params_path := mpp, training_replies := newReplies }
  | .error e => .error e

/-- One reply record as `_get_training_testing_results` builds it (lines
316-328): the ten recorded keys, `params` included — and no `params_path`
(its recording at line 321 is commented out). -/
def c9FreshRecord : List (String × Val) :=
  [("success", Val.vnat 1), ("msg", Val.vstr ""), ("dataset_id", Val.vstr "d"),
   ("node_id", Val.vstr "alice"), ("params", Val.vnat 9),
   ("optimizer_args", Val.vnat 0), ("optim_aux_var", Val.vdict []),
   ("sample_size", Val.vnat 5), ("encryption_factor", Val.vnat 0),
   ("timing", Val.vdict [("rtime_total", Val.vnat 2)])]

/-- A job with one executed round recorded by the wait loop. -/
def c9FreshJob : JobState :=
  { researcher_id := "r1", job_id := "j1", model_params_file := "agg.mpk",
    training_replies := [[c9FreshRecord]] }

/-- One reply record as `_load_training_replies` rebuilds it from an earlier
breakpoint: it carries a `params_path` entry (line 639 requires one). -/
def c9ReloadedRecord : List (String × Val) :=
  [("node_id", Val.vstr "alice"), ("params", Val.vnat 9),
   ("params_path", Val.vstr "old/params_alice.mpk"), ("msg", Val.vstr "ok")]

/-- A job whose training replies were reloaded from a breakpoint. -/
def c9ReloadedJob : JobState :=
  { researcher_id := "r1", job_id := "j1", model_params_file := "agg.mpk",
    training_replies := [[c9ReloadedRecord]] }

theorem forall₂_map_self {α β : Type} (R : β → α → Prop) (f : α → β) (l : List α)
    (h : ∀ x ∈ l, R (f x) x) : List.Forall₂ R (l.map f) l := by
  induction l with
  | nil => simp
  | cons x xs ih =>
    exact List.Forall₂.cons (h x (List.mem_cons_self x xs))
      (ih fun y hy => h y (List.mem_cons_of_mem x hy))

/-! ### Claim C9 -/

/-- C9 (code bug): the claim — and `save_state`'s own docstring ("Returns:
Job's current state for breakpoint"), and `_load_training_replies`, which
requires a `params_path` in every saved record — describe the intended
behaviour, but the code is broken:

* for any training replies recorded by this code version's wait loop
  (`c9FreshJob`; the records carry no `params_path`, its recording at
  job.py:321 being commented out), `save_state` raises
  `KeyError('params_path')` at job.py:573 instead of returning the
  breakpoint record — for **every** behaviour of the filesystem-link helpers;
* even on records that do carry `params_path` (replies reloaded from an
  earlier breakpoint, `c9ReloadedJob`), `save_state` returns records whose
  `params` entry is stripped as claimed **but** whose `params_path` field is
  rewritten to the link path, so "all other fields unchanged" fails too;
* the aggregated-parameters side of the claim does hold:
  `update_parameters` stores the serialized parameters in the side file and
  the state record references them only by that path string. -/
theorem C9_save_state_keyerror :
    (∀ linkAgg linkFile : String → String,
      saveState linkAgg linkFile c9FreshJob = .error "KeyError: 'params_path'")
    ∧ saveState (fun p => p) (fun p => "bkpt/" ++ p) c9ReloadedJob
        = .ok { researcher_id := "r1", job_id := "j1", model_params_path := "agg.mpk",
                training_replies := [[[("node_id", Val.vstr "alice"),
                    ("params_path", Val.vstr "bkpt/old/params_alice.mpk"),
                    ("msg", Val.vstr "ok")]]] }
    ∧ dictGet c9ReloadedRecord "params_path"
        ≠ some (Val.vstr "bkpt/old/params_alice.mpk")
    ∧ dictGet (updateParameters c9FreshJob [] (Val.vnat 5) "agg.mpk").2.1 "agg.mpk"
        = some (Val.vnat 5) := by
  refine ⟨fun linkAgg linkFile => rfl, rfl, ?_, rfl⟩
  intro h
  rw [show dictGet c9ReloadedRecord "params_path"
      = some (Val.vstr "old/params_alice.mpk") from rfl] at h
  injection h with h1
  injection h1 with h2
  exact absurd h2 (by decide)

/-! ## Node-side message handler (`fedbiomed/node/node.py`)

`Node.on_message` (lines 66-166) reads `command = msg['command']` (a missing
key raises `KeyError`), formats the message through
`NodeMessages.format_incoming_message` (a badly formatted message raises
`FedbiomedMessageError`), dispatches on the command, and raises
`NotImplementedError('Command not found')` for a command it does not handle;
every one of those exceptions is caught and turned into
`self.send_error(ErrorNumbers.FB301, extra_msg=..., researcher_id=resid)`
with `resid = msg.get('researcher_id', 'unknown_researcher_id')`.
`Node.send_error` (lines 395-420) sends an `ErrorMessage` with that
`researcher_id` through the gRPC client. -/

/-- The commands `Node.on_message` dispatches on (`train`, `secagg`,
`secagg-delete`, `ping`, `search`, `list`, `approval`,
`training-plan-status`). -/
def knownNodeCommands : List String :=
  ["train", "secagg", "secagg-delete", "ping", "search", "list", "approval",
   "training-plan-status"]

/-- Modelled from the spec: `NodeMessages.format_incoming_message`
(`fedbiomed.common.message`) is not under `src/` — per §4.1 the codec
"fails with `DecodeError` on ... a `command`/variant discriminator it does
not recognize", so formatting succeeds exactly on recognized commands. -/
def formatIncomingMessage (msg : List (String × Val)) :
    Except String (List (String × Val)) :=
  match dictGet msg "command" with
  | some (Val.vstr s) =>
      if knownNodeCommands.contains s then .ok msg else .error "unknown command"
  | _ => .error "unrecognized message"

/-- The observable action `Node.on_message` takes for one incoming message
(enqueue a task, reply through the gRPC client, or send an `ErrorMessage`
with code `FB301` addressed to `researcherId`). -/
inductive NodeAction : Type where
  | enqueueTask (request : List (String × Val))
  | taskSecaggDelete (request : List (String × Val))
  | sendPong (researcherId : Option Val)
  | searchReply (tags : Option Val)
  | listReply
  | approvalReply
  | trainingPlanStatusReply
  | sendError (errnum : String) (extraMsg : String) (researcherId : Val)

/-- `msg.get('researcher_id', 'unknown_researcher_id')`: the destination of
an error reply, with the default placeholder when the key is absent. -/
def residOf (msg : List (String × Val)) : Val :=
  (dictGet msg "researcher_id").getD (Val.vstr "unknown_researcher_id")

/-- `Node.on_message`: the `try` body with each `except` branch mapped to the
`send_error` call it performs.  A non-string `command` value matches none of
the `elif` string comparisons, so it falls to the `NotImplementedError`
branch. -/
def onMessage (msg : List (String × Val)) : NodeAction :=
  match dictGet msg "command" with
  | none => .sendError "FB301" "'command' property was not found" (residOf msg)
  | some command =>
    match formatIncomingMessage msg with
    | .error _ => .sendError "FB301" "Message was not properly formatted" (residOf msg)
    | .ok request =>
      match command with
      | Val.vstr c =>
        if c = "train" ∨ c = "secagg" then .enqueueTask request
        else if c = "secagg-delete" then .taskSecaggDelete request
        else if c = "ping" then .sendPong (dictGet msg "researcher_id")
        else if c = "search" then .searchReply (dictGet msg "tags")
        else if c = "list" then .listReply
        else if c = "approval" then .approvalReply
        else if c = "training-plan-status" then .trainingPlanStatusReply
        else .sendError "FB301" ("Command `" ++ c ++ "` is not implemented")
               (residOf msg)
      | _ => .sendError "FB301" "Command is not implemented" (residOf msg)

/-! ### Claim C7 -/

/-- C7: when a node receives a request whose `command` discriminator it does
not recognize (absent from `knownNodeCommands`, or not even a string), it
sends back an `ErrorMessage` (code `FB301`) addressed to the originating
`researcher_id` — `msg.get('researcher_id', 'unknown_researcher_id')`, i.e.
the default placeholder when the field is absent — instead of crashing or
silently dropping the request (`onMessage` is total and the resulting action
is always a `sendError`). -/
theorem C7_unknown_command_error_reply (msg : List (String × Val)) (c : Val)
    (hc : dictGet msg "command" = some c)
    (hunknown : ∀ s, c = Val.vstr s → s ∉ knownNodeCommands) :
    ∃ extra, onMessage msg
      = .sendError "FB301" extra
          ((dictGet msg "researcher_id").getD (Val.vstr "unknown_researcher_id")) := by
  unfold onMessage
  rw [hc]
  have hfmt : formatIncomingMessage msg = .error "unknown command"
      ∨ formatIncomingMessage msg = .error "unrecognized message" := by
    unfold formatIncomingMessage
    rw [hc]
    cases c with
    | vstr s => exact Or.inl (by simp [hunknown s rfl])
    | vnat n => simp
    | vdict d => simp
  rcases hfmt with h | h
  · rw [h]
    exact ⟨"Message was not properly formatted", rfl⟩
  · rw [h]
    exact ⟨"Message was not properly formatted", rfl⟩

/-- Witness for `C7_unknown_command_error_reply`: the unknown command
`destroy` from researcher `r1`. -/
theorem C7_unknown_command_error_reply_witness :
    ∃ extra, onMessage [("command", Val.vstr "destroy"), ("researcher_id", Val.vstr "r1")]
      = .sendError "FB301" extra
          ((dictGet [("command", Val.vstr "destroy"), ("researcher_id", Val.vstr "r1")]
              "researcher_id").getD (Val.vstr "unknown_researcher_id")) :=
  C7_unknown_command_error_reply
    [("command", Val.vstr "destroy"), ("researcher_id", Val.vstr "r1")]
    (Val.vstr "destroy") rfl
    (fun s hs => by
      injection hs with h
      subst h
      decide)

/-! ## Coordination server send path (`_GrpcAsyncServer.send`, lines 212-225)

```python
agent = await self._agent_store.get(node_id)
if not agent:
    logger.info(f"Node {node_id} is not registered on server. Discard message.")
    return
await agent.send(message)
```
-/

/-- Modelled from the spec: `fedbiomed.transport.node_agent`
(`AgentStore`, `NodeAgent`) is not under `src/`.  Per §4.4 the agent store
maps node identity to agent (`get(node_id) -> Optional<NodeAgent>`); per §4.3
a node agent owns an ordered `pending_tasks` queue and `enqueue`/send appends
the task to it.  The store is modelled as an association list from `node_id`
to the agent's pending-task queue; this helper appends `m` to the queue of
`k`'s agent. -/
def agentStoreEnqueue {M : Type} : List (String × List M) → String → M → List (String × List M)
  | [], _, _ => []
  | p :: rest, k, m =>
    if p.1 = k then (p.1, p.2 ++ [m]) :: rest else p :: agentStoreEnqueue rest k m

/-- `_GrpcAsyncServer.send`: look the agent up in the store; if the node is
not registered, only log and return (the store is unchanged and nothing is
delivered); otherwise forward the message to the agent
(`await agent.send(message)`). -/
def grpcServerSend {M : Type} (store : List (String × List M)) (message : M)
    (nodeId : String) : List (String × List M) :=
  match dictGet store nodeId with
  | none => store
  | some _ => agentStoreEnqueue store nodeId message

theorem dictGet_agentStoreEnqueue_self {M : Type} (store : List (String × List M))
    (k : String) (m : M) :
    dictGet (agentStoreEnqueue store k m) k = (dictGet store k).map (· ++ [m]) := by
  induction store with
  | nil => rfl
  | cons p rest ih =>
    by_cases hp : p.1 = k
    · simp [agentStoreEnqueue, dictGet, hp]
    · simp [agentStoreEnqueue, dictGet, hp, ih]

theorem dictGet_agentStoreEnqueue_ne {M : Type} (store : List (String × List M))
    (k k' : String) (m : M) (h : k' ≠ k) :
    dictGet (agentStoreEnqueue store k m) k' = dictGet store k' := by
  induction store with
  | nil => rfl
  | cons p rest ih =>
    by_cases hp : p.1 = k
    · simp only [agentStoreEnqueue, if_pos hp, dictGet]
      rw [if_neg (fun hc : p.1 = k' => h (hc.symm.trans hp)),
        if_neg (fun hc : p.1 = k' => h (hc.symm.trans hp))]
    · simp only [agentStoreEnqueue, if_neg hp, dictGet]
      by_cases hp' : p.1 = k'
      · rw [if_pos hp', if_pos hp']
      · rw [if_neg hp', if_neg hp', ih]

/-! ### Claim C10 -/

/-- C10: calling the coordination server's send operation with a `node_id`
for which no agent is registered raises no error and delivers nothing — the
call returns normally with the store unchanged (the message is discarded,
only logged) — while for every registered `node_id` the message is forwarded
to that node's agent (appended to its pending-task queue) and every other
agent is untouched. -/
theorem C10_send_unregistered_discard {M : Type} (store : List (String × List M))
    (message : M) (nodeId : String) :
    (dictGet store nodeId = none → grpcServerSend store message nodeId = store)
    ∧ (∀ q, dictGet store nodeId = some q →
        dictGet (grpcServerSend store message nodeId) nodeId = some (q ++ [message])
        ∧ ∀ k, k ≠ nodeId →
            dictGet (grpcServerSend store message nodeId) k = dictGet store k) := by
  constructor
  · intro h
    unfold grpcServerSend
    rw [h]
  · intro q hq
    unfold grpcServerSend
    rw [hq]
    constructor
    · rw [dictGet_agentStoreEnqueue_self, hq]
      rfl
    · intro k hk
      exact dictGet_agentStoreEnqueue_ne store nodeId k message hk

/-- Witness for `C10_send_unregistered_discard`: sending to the unregistered
node `ghost` leaves a one-agent store unchanged, and sending to the
registered node `alice` appends to her queue. -/
theorem C10_send_unregistered_discard_witness :
    grpcServerSend [("alice", [(0 : Nat)])] 7 "ghost" = [("alice", [(0 : Nat)])]
    ∧ dictGet (grpcServerSend [("alice", [(0 : Nat)])] 7 "alice") "alice"
        = some [0, 7] :=
  ⟨(C10_send_unregistered_discard [("alice", [(0 : Nat)])] 7 "ghost").1 (by decide),
   ((C10_send_unregistered_discard [("alice", [(0 : Nat)])] 7 "alice").2 [0]
      (by decide)).1⟩

end FedBiomed
